import Mathlib

/-!
A shallow embedding of the action-resolution pipeline of
`operate/models/apis.py` (self-operating-computer for SBC).

Pure string- and list-level logic is translated directly from the Python
source.  External collaborators (the model network calls, the screen
capture, the OpenCV resize primitive, the OCR engine readings) are passed
in as explicit parameters or abstracted as `Except` steps, exactly at the
try/except boundaries of the source.  Machine floats that only carry
heuristic scores and screen coordinates are modelled as rationals; byte
images are lists of rows of channel triples.
-/

namespace SOC

attribute [local semireducible] Rat.add Rat.mul Rat.inv Rat.sub

/-- Python regex class `\w` (ASCII model): letters, digits, underscore. -/
def isWordChar (c : Char) : Bool := c.isAlpha || c.isDigit || c == '_'

/-- The single-quote character (code point 39). -/
def singleQuote : Char := Char.ofNat 39

/-- The double-quote character (code point 34). -/
def doubleQuote : Char := Char.ofNat 34

/-- Membership in the regex class of the two quote characters. -/
def isQuoteChar (c : Char) : Bool := c == singleQuote || c == doubleQuote

/-- Python `str.lower()` (character-wise model). -/
def lowerList (l : List Char) : List Char := l.map Char.toLower

/-- First match of the pattern quote, one-or-more non-quotes, quote
(the `extract_target_from_text` priority-1 regex, also used verbatim in
`call_claude_37`): scan for a quote character followed by a nonempty run
of non-quote characters that is closed by another quote character (of
either kind, exactly as the character classes of the pattern allow), and
return the run. -/
def findQuoted : List Char → Option (List Char)
  | [] => none
  | c :: rest =>
    if isQuoteChar c then
      match rest.span (fun d => !isQuoteChar d) with
      | (_, []) => none
      | (run, _ :: _) => if run.isEmpty then findQuoted rest else some run
    else findQuoted rest

/-- Specification-side definition, written from the words of the spec
("any quoted substring (single or double quotes)") for comparison with
the source regex: the content of the first quote character that is later
closed by a matching quote character of the same kind. -/
def specFirstQuoted : List Char → Option (List Char)
  | [] => none
  | c :: rest =>
    if isQuoteChar c then
      if rest.contains c then some (rest.takeWhile (fun d => d != c))
      else specFirstQuoted rest
    else specFirstQuoted rest

/-- Python substring membership `needle in hay`. -/
def containsSub (needle : List Char) : List Char → Bool
  | [] => needle.isEmpty
  | c :: rest => needle.isPrefixOf (c :: rest) || containsSub needle rest

/-- The hint substrings of `extract_target_from_text` priority 2. -/
def fileHintTokens : List (List Char) :=
  ["-main", "folder", "file", "image", "doc", ".", "sbc"].map String.toList

/-- Separator class `[-\.]` of the file-pattern regex. -/
def isFileSep (c : Char) : Bool := c == '-' || c == '.'

/-- Attempt of the regex `\w+[-\.]\w+[-\.]\w+|\w+[-\.]\w+` at the head of
the list: greedy word runs joined by single separators, preferring the
three-segment alternative, returning the matched text and the remainder. -/
def matchFileAt (l : List Char) : Option (List Char × List Char) :=
  match l.span isWordChar with
  | ([], _) => none
  | (r1, t1) =>
    match t1 with
    | [] => none
    | s1 :: t1x =>
      if isFileSep s1 then
        match t1x.span isWordChar with
        | ([], _) => none
        | (r2, t2) =>
          match t2 with
          | [] => some (r1 ++ s1 :: r2, [])
          | s2 :: t2x =>
            if isFileSep s2 then
              match t2x.span isWordChar with
              | ([], _) => some (r1 ++ s1 :: r2, t2)
              | (r3, t3) => some (r1 ++ s1 :: r2 ++ s2 :: r3, t3)
            else some (r1 ++ s1 :: r2, t2)
      else none

/-- Fuelled scan implementing `findall` for the file pattern: try the
match at every position, resuming after each match. -/
def findAllFilesAux : Nat → List Char → List (List Char)
  | 0, _ => []
  | _ + 1, [] => []
  | fuel + 1, c :: rest =>
    match matchFileAt (c :: rest) with
    | some (m, r) => m :: findAllFilesAux fuel r
    | none => findAllFilesAux fuel rest

/-- All file-pattern matches of a text, in order. -/
def findAllFiles (l : List Char) : List (List Char) := findAllFilesAux (l.length + 1) l

/-- Priority 2 of `extract_target_from_text`: the first file-pattern match
whose lowercase form contains one of the hint substrings. -/
def filePatternTarget (text : List Char) : Option (List Char) :=
  (findAllFiles text).find? (fun m => fileHintTokens.any (fun hint => containsSub hint (lowerList m)))

/-- The action-verb phrases of `extract_target_from_text` priority 3. -/
def clickPhraseList : List (List Char) :=
  ["click on ", "click the ", "clicking on ", "clicking the ", "open ", "opening "].map String.toList

/-- Python `hay.split(needle, 1)[1]`: the suffix after the first occurrence
of the needle, or none when the needle does not occur. -/
def splitFirstAfter (needle : List Char) : List Char → Option (List Char)
  | [] => if needle.isEmpty then some [] else none
  | c :: rest =>
    if needle.isPrefixOf (c :: rest) then some ((c :: rest).drop needle.length)
    else splitFirstAfter needle rest

/-- Python `s.split(stop)[0]`: the prefix before the first stop character. -/
def takeBeforeChar (stop : Char) (l : List Char) : List Char :=
  l.takeWhile (fun c => c != stop)

/-- Python `s.strip()`. -/
def pyStrip (l : List Char) : List Char :=
  ((l.dropWhile Char.isWhitespace).reverse.dropWhile Char.isWhitespace).reverse

/-- Fuelled core of Python `s.split()` with no separator argument:
whitespace runs separate the words, empty pieces are dropped. -/
def pySplitWhitespaceAux : Nat → List Char → List (List Char)
  | 0, _ => []
  | _ + 1, [] => []
  | fuel + 1, c :: rest =>
    if c.isWhitespace then pySplitWhitespaceAux fuel rest
    else
      match (c :: rest).span (fun d => !d.isWhitespace) with
      | (w, t) => w :: pySplitWhitespaceAux fuel t

/-- Python `s.split()` with no separator argument. -/
def pySplitWhitespace (l : List Char) : List (List Char) := pySplitWhitespaceAux (l.length + 1) l

/-- First result of a partial function along a list. -/
def firstSome {α β : Type} (f : α → Option β) : List α → Option β
  | [] => none
  | a :: rest =>
    match f a with
    | some b => some b
    | none => firstSome f rest

/-- Priority 3 of `extract_target_from_text`: the phrase after the first
occurring action verb, cut at the first period or comma, stripped,
accepted when it is two to five words long; otherwise the next verb is
tried. -/
def clickPhraseTarget (text : List Char) : Option (List Char) :=
  let lowered := lowerList text
  firstSome
    (fun phrase =>
      match splitFirstAfter phrase lowered with
      | none => none
      | some after =>
        let target := pyStrip (takeBeforeChar ',' (takeBeforeChar '.' after))
        let n := (pySplitWhitespace target).length
        if 2 ≤ n ∧ n ≤ 5 then some target else none)
    clickPhraseList

/-- The regex class `[A-Z]`. -/
def isUpperAZ (c : Char) : Bool := 'A' ≤ c && c ≤ 'Z'

/-- The regex class `[a-z]`. -/
def isLowerAZ (c : Char) : Bool := 'a' ≤ c && c ≤ 'z'

/-- One capitalized word `[A-Z][a-z]+` whose end is a word boundary or a
continuation point: the following character must not be a word character
(otherwise the whole attempt fails, as backtracking cannot repair it). -/
def capUnit (l : List Char) : Option (List Char × List Char) :=
  match l with
  | [] => none
  | c :: rest =>
    if isUpperAZ c then
      match rest.span isLowerAZ with
      | ([], _) => none
      | (r, t) =>
        match t with
        | [] => some (c :: r, [])
        | d :: _ => if isWordChar d then none else some (c :: r, t)
    else none

/-- Greedy star over whitespace-joined further capitalized words
(the `(?:\s+[A-Z][a-z]+)*` part), keeping the consumed text. -/
def capChainAux : Nat → List Char → List Char → List Char × List Char
  | 0, acc, t => (acc, t)
  | fuel + 1, acc, t =>
    match t.span Char.isWhitespace with
    | ([], _) => (acc, t)
    | (w, t2) =>
      match capUnit t2 with
      | some (u, t3) => capChainAux fuel (acc ++ w ++ u) t3
      | none => (acc, t)

/-- Attempt of `[A-Z][a-z]+(?:\s+[A-Z][a-z]+)*\b` at the head of the list. -/
def capMatchAt (l : List Char) : Option (List Char × List Char) :=
  match capUnit l with
  | none => none
  | some (u, t) =>
    match capChainAux (t.length + 1) u t with
    | (m, t2) => some (m, t2)

/-- Last character of a list with a default. -/
def lastCharD (l : List Char) (dflt : Char) : Char := l.getLastD dflt

/-- Fuelled `findall` scan for the capitalized-phrase pattern, tracking
whether the current position sits at a word boundary. -/
def findAllCapsAux : Nat → Bool → List Char → List (List Char)
  | 0, _, _ => []
  | _ + 1, _, [] => []
  | fuel + 1, boundary, c :: rest =>
    if boundary then
      match capMatchAt (c :: rest) with
      | some (m, t) => m :: findAllCapsAux fuel (!isWordChar (lastCharD m c)) t
      | none => findAllCapsAux fuel (!isWordChar c) rest
    else findAllCapsAux fuel (!isWordChar c) rest

/-- All capitalized-phrase matches of a text, in order. -/
def findAllCaps (l : List Char) : List (List Char) := findAllCapsAux (l.length + 1) true l

/-- Priority 4 of `extract_target_from_text`: the first capitalized phrase
longer than three characters. -/
def capWordTarget (text : List Char) : Option (List Char) :=
  (findAllCaps text).find? (fun m => decide (3 < m.length))

/-- `extract_target_from_text` of `operate/models/apis.py`: quoted text
first, then file-like patterns with a hint substring, then phrases after
action verbs, then capitalized phrases, defaulting to the input itself. -/
def extract_target_from_text (text : String) : String :=
  let l := text.toList
  match findQuoted l with
  | some q => String.mk q
  | none =>
    match filePatternTarget l with
    | some m => String.mk m
    | none =>
      match clickPhraseTarget l with
      | some t => String.mk t
      | none =>
        match capWordTarget l with
        | some m => String.mk m
        | none => text

/-- One operation of the wire schema: a mapping with optional fields.
Coordinates are modelled as rationals; the `double_click` marker defaults
to absent/false, matching `operation.get("double_click", False)`. -/
structure Op where
  operation : Option String := none
  thought : Option String := none
  text : Option String := none
  label : Option String := none
  x : Option ℚ := none
  y : Option ℚ := none
  duration : Option Nat := none
  double_click : Bool := false
deriving DecidableEq, Repr

/-- One operation mentions a double-click in its thought: the words
"double" and "click" both occur in the lowercased thought text. -/
def thoughtMentionsDoubleClick (op : Op) : Bool :=
  match op.thought with
  | some t =>
      containsSub ("double".toList) (lowerList t.toList) &&
      containsSub ("click".toList) (lowerList t.toList)
  | none => false

/-- The double-click detection scan of `call_claude_37`: some operation
carries an explicit `double_click` flag, or some thought mentions a
double-click. -/
def doubleClickHeuristic (ops : List Op) : Bool :=
  ops.any (fun op => op.double_click || thoughtMentionsDoubleClick op)

/-- The claude-3.7 in-loop pattern `\b\w+-\w+-\w+\b|\bsbc[- ]\w+\b`
(IGNORECASE), first alternative attempt at the head of the list. -/
def claudeAlt1At (l : List Char) : Option (List Char) :=
  match l.span isWordChar with
  | ([], _) => none
  | (r1, t1) =>
    match t1 with
    | '-' :: t1x =>
      match t1x.span isWordChar with
      | ([], _) => none
      | (r2, t2) =>
        match t2 with
        | '-' :: t2x =>
          match t2x.span isWordChar with
          | ([], _) => none
          | (r3, _) => some (r1 ++ '-' :: r2 ++ '-' :: r3)
        | _ => none
    | _ => none

/-- Second alternative `\bsbc[- ]\w+\b` (case-insensitive s, b, c). -/
def claudeAlt2At (l : List Char) : Option (List Char) :=
  match l with
  | a :: b :: c :: rest =>
    if a.toLower == 's' && b.toLower == 'b' && c.toLower == 'c' then
      match rest with
      | d :: restx =>
        if d == '-' || d == ' ' then
          match restx.span isWordChar with
          | ([], _) => none
          | (r, _) => some (a :: b :: c :: d :: r)
        else none
      | [] => none
    else none
  | _ => none

/-- Fuelled `re.search` scan for the claude-3.7 hyphen/sbc pattern,
tracking the word boundary required by the leading backslash-b. -/
def claudePatternSearchAux : Nat → Bool → List Char → Option (List Char)
  | 0, _, _ => none
  | _ + 1, _, [] => none
  | fuel + 1, boundary, c :: rest =>
    if boundary then
      match claudeAlt1At (c :: rest) with
      | some m => some m
      | none =>
        match claudeAlt2At (c :: rest) with
        | some m => some m
        | none => claudePatternSearchAux fuel (!isWordChar c) rest
    else claudePatternSearchAux fuel (!isWordChar c) rest

/-- First match of the claude-3.7 hyphen/sbc pattern in a text. -/
def claudePatternSearch (l : List Char) : Option (List Char) :=
  claudePatternSearchAux (l.length + 1) true l

/-- The click indicator phrases scanned by the claude-3.7 loop. -/
def claudeIndicatorList : List (List Char) :=
  ["click on", "click the", "clicking on", "clicking the"].map String.toList

/-- The claude-3.7 indicator fallback: for the first indicator present in
the lowercased thought, the following text cut at the first period or
comma and stripped; empty when no indicator occurs (the Python loop
breaks after the first present indicator, even when the cut is empty). -/
def claudeIndicatorTarget (thought : List Char) : List Char :=
  let lowered := lowerList thought
  match firstSome
      (fun ind =>
        (splitFirstAfter ind lowered).map
          (fun after => pyStrip (takeBeforeChar ',' (takeBeforeChar '.' after))))
      claudeIndicatorList with
  | some t => t
  | none => []

/-- Target-description extraction of the claude-3.7 click branch: the
`text` field when the key is present, else quoted text in the thought,
else the hyphen/sbc pattern, else the indicator fallback, else empty. -/
def claudeRawTarget (op : Op) : List Char :=
  match op.text with
  | some t => t.toList
  | none =>
    match op.thought with
    | some th =>
      match findQuoted th.toList with
      | some q => q
      | none =>
        match claudePatternSearch th.toList with
        | some p => p
        | none => claudeIndicatorTarget th.toList
    | none => []

/-- Target description of a claude-3.7 click operation.  When the
extracted description is empty the source formats the explicit
coordinates into a position string; a missing coordinate key raises a
KeyError there, which escapes the whole turn (the error value). -/
def claudeTargetDescription (op : Op) : Except Unit (List Char) :=
  let td := claudeRawTarget op
  if td.isEmpty then
    match op.x, op.y with
    | some xv, some yv =>
        Except.ok (("target at position (".toList) ++ (toString xv).toList ++
          (", ".toList) ++ (toString yv).toList ++ (")".toList))
    | _, _ => Except.error ()
  else Except.ok td

/-- The double-click marking of the first click: the source reads the
x and y keys inside a local try before setting the flag, so the flag is
only set when both coordinates are present (a KeyError there is swallowed
and leaves the operation unchanged). -/
def flagDoubleClick (op : Op) : Op :=
  match op.x, op.y with
  | some _, some _ => { op with double_click := true }
  | _, _ => op

/-- The per-operation loop of `call_claude_37`: click operations have
their target extracted (possible KeyError escape), the first operation is
flag-marked on a detected double-click, and later click operations are
skipped entirely when a double-click was detected.  Non-click operations
pass through unchanged. -/
def claudeLoop (needDC : Bool) : Nat → List Op → Except Unit (List Op)
  | _, [] => Except.ok []
  | i, op :: rest =>
    if op.operation = some "click" then
      match claudeTargetDescription op with
      | Except.error e => Except.error e
      | Except.ok _ =>
        let op2 := if needDC ∧ i = 0 then flagDoubleClick op else op
        if needDC ∧ 0 < i then claudeLoop needDC (i + 1) rest
        else
          match claudeLoop needDC (i + 1) rest with
          | Except.error e => Except.error e
          | Except.ok l => Except.ok (op2 :: l)
    else
      match claudeLoop needDC (i + 1) rest with
      | Except.error e => Except.error e
      | Except.ok l => Except.ok (op :: l)

/-- The default operation returned when the processed batch is empty. -/
def claudeEmptyWaitOp : Op := { operation := some "wait", duration := some 1 }

/-- The operation returned by the outer except handler of
`call_claude_37`. -/
def claudeExceptionOp : Op :=
  { thought := some "Continuing task after error", operation := some "wait", duration := some 1 }

/-- Batch normalization of `call_claude_37` on parsed content: run the
double-click scan, process every operation, and fall back to a bare wait
operation when the processed list is empty. -/
def claudeProcess (parsed : List Op) : Except Unit (List Op) :=
  match claudeLoop (doubleClickHeuristic parsed) 0 parsed with
  | Except.error e => Except.error e
  | Except.ok l => Except.ok (if l.isEmpty then [claudeEmptyWaitOp] else l)

/-- Value returned by `call_claude_37` for a successfully parsed batch:
the processed batch, or the fixed wait operation when any exception
escaped the loop. -/
def call_claude_37_result (parsed : List Op) : List Op :=
  match claudeProcess parsed with
  | Except.ok l => l
  | Except.error _ => [claudeExceptionOp]

/-- Outcome of one backend turn: a batch of operations handed to the
executor, or a hop into the gpt-4o fallback backend. -/
inductive TurnResult where
  | ops (l : List Op)
  | fallbackToGpt4o
deriving DecidableEq, Repr

/-- The whole `call_claude_37` turn with the try body up to JSON parsing
abstracted as a step: any uncaught failure (the error value) is converted
by the except handler into the fixed wait operation, and so is a failure
inside the processing loop. -/
def call_claude_37_turn (step : Except Unit (List Op)) : TurnResult :=
  match step with
  | Except.error _ => TurnResult.ops [claudeExceptionOp]
  | Except.ok parsed => TurnResult.ops (call_claude_37_result parsed)

/-- One OCR reading: a quadrilateral bounding box, the recognized text
and a confidence score, as produced per element by the OCR engine. -/
structure OCRElem where
  p1 : ℚ × ℚ
  p2 : ℚ × ℚ
  p3 : ℚ × ℚ
  p4 : ℚ × ℚ
  text : String
  conf : ℚ
deriving DecidableEq, Repr

/-- Horizontal center of an OCR quadrilateral. -/
def elemCenterX (e : OCRElem) : ℚ := (e.p1.1 + e.p2.1 + e.p3.1 + e.p4.1) / 4

/-- Vertical center of an OCR quadrilateral. -/
def elemCenterY (e : OCRElem) : ℚ := (e.p1.2 + e.p2.2 + e.p3.2 + e.p4.2) / 4

/-- Index of the first element whose text equals the target exactly. -/
def exactTextIdx : List OCRElem → String → Option Nat
  | [], _ => none
  | e :: rest, t => if e.text = t then some 0 else (exactTextIdx rest t).map (· + 1)

/-- Index of the first element related to the target by substring
containment in either direction. -/
def containTextIdx : List OCRElem → String → Option Nat
  | [], _ => none
  | e :: rest, t =>
    if containsSub t.toList e.text.toList || containsSub e.text.toList t.toList then some 0
    else (containTextIdx rest t).map (· + 1)

/-- Modelled from the spec: `operate.utils.ocr.get_text_element` is not
under src/ (only its callers are).  Per the spec it deterministically
picks the OCR element best matching the target text, preferring exact
matches over partial substring matches, and fails when nothing matches. -/
def get_text_element (result : List OCRElem) (target : String) : Option Nat :=
  match exactTextIdx result target with
  | some i => some i
  | none => containTextIdx result target

/-- Modelled from the spec: `operate.utils.ocr.get_text_coordinates` is
not under src/.  Per the spec it converts the indexed element into the
fractional center coordinate of its bounding box. -/
def get_text_coordinates (result : List OCRElem) (idx : Nat) (w h : ℚ) : Option (ℚ × ℚ) :=
  (result.get? idx).map (fun e => (elemCenterX e / w, elemCenterY e / h))

/-- The per-click OCR resolution shared by `call_qwen_vl_with_ocr`,
`call_gpt_4o_with_ocr` and `call_o1_with_ocr`: index lookup then
fractional center. -/
def ocr_click_resolve (result : List OCRElem) (w h : ℚ) (t : String) : Option (ℚ × ℚ) :=
  match get_text_element result t with
  | some i => get_text_coordinates result i w h
  | none => none

/-- The per-click OCR resolution of `call_claude_3_with_ocr`: the source
truncates the target to its first three characters before the lookup
(the comment there says limiting the text raises the success rate). -/
def claude3_click_resolve (result : List OCRElem) (w h : ℚ) (t : String) : Option (ℚ × ℚ) :=
  match get_text_element result (t.take 3) with
  | some i => get_text_coordinates result i w h
  | none => none

/-- The processing loop shared by the OCR-augmented backends on parsed
content: click operations are resolved through OCR and enriched with the
fractional coordinates; a missing text field or a failed lookup raises
inside the loop (the error value), aborting the whole batch.  Non-click
operations pass through unchanged. -/
def qwen_vl_process (ocr : List OCRElem) (w h : ℚ) : List Op → Except Unit (List Op)
  | [] => Except.ok []
  | op :: rest =>
    if op.operation = some "click" then
      match op.text with
      | none => Except.error ()
      | some t =>
        match ocr_click_resolve ocr w h t with
        | none => Except.error ()
        | some (xv, yv) =>
          match qwen_vl_process ocr w h rest with
          | Except.error e => Except.error e
          | Except.ok l => Except.ok ({ op with x := some xv, y := some yv } :: l)
    else
      match qwen_vl_process ocr w h rest with
      | Except.error e => Except.error e
      | Except.ok l => Except.ok (op :: l)

/-- The whole `call_qwen_vl_with_ocr` turn with the try body up to JSON
parsing abstracted as a step: any uncaught failure, before or during the
processing loop, is handled by falling back to the gpt-4o backend. -/
def call_qwen_vl_turn (ocr : List OCRElem) (w h : ℚ) (step : Except Unit (List Op)) : TurnResult :=
  match step with
  | Except.error _ => TurnResult.fallbackToGpt4o
  | Except.ok content =>
    match qwen_vl_process ocr w h content with
    | Except.error _ => TurnResult.fallbackToGpt4o
    | Except.ok l => TurnResult.ops l

/-- A detector bounding box: left, top, width, height. -/
abbrev Box : Type := ℚ × ℚ × ℚ × ℚ

/-- Modelled from the spec: `operate.utils.label.get_label_coordinates`
is not under src/.  Per the spec it looks the model-emitted label up in
the label-to-box map and is unresolved when the label is absent. -/
def get_label_coordinates (label : Option String) (lc : List (String × Box)) : Option Box :=
  match label with
  | some l => (lc.find? (fun p => p.1 == l)).map (fun p => p.2)
  | none => none

/-- Modelled from the spec: `operate.utils.label.get_click_position_in_percent`
is not under src/.  Per the spec it returns the box center as a fraction
of the image size, and nothing when the box is unresolved. -/
def get_click_position_in_percent (box : Option Box) (w h : ℚ) : Option (ℚ × ℚ) :=
  box.map (fun b => ((b.1 + b.2.2.1 / 2) / w, (b.2.1 + b.2.2.2 / 2) / h))

/-- Rounding of a fraction to two decimals, modelling the `:.2f`
formatting the labeled backend applies before storing the coordinate. -/
def quant2 (q : ℚ) : ℚ := ((Rat.floor (q * 100 + 1 / 2) : ℤ) : ℚ) / 100

/-- Result of the labeled backend processing: the implicit Python None
(the loop body never ran), a batch of operations, or the in-loop
`return call_gpt_4o(messages)` fallback hop. -/
inductive LabeledResult where
  | noResult
  | ops (l : List Op)
  | fallbackToGpt4o
deriving DecidableEq, Repr

/-- The processing loop of `call_gpt_4o_labeled` on parsed content.  The
return statement of the source sits inside the for loop, so only the
first operation is ever processed: a click is resolved through the label
map (an unresolved position returns the gpt-4o fallback), anything else
is appended, and the single-element list is returned immediately.  An
empty batch falls off the end of the try body, returning None. -/
def call_gpt_4o_labeled_process (lc : List (String × Box)) (w h : ℚ) :
    List Op → LabeledResult
  | [] => LabeledResult.noResult
  | op :: _ =>
    if op.operation = some "click" then
      match get_click_position_in_percent (get_label_coordinates op.label lc) w h with
      | none => LabeledResult.fallbackToGpt4o
      | some (xp, yp) =>
        LabeledResult.ops [{ op with x := some (quant2 xp), y := some (quant2 yp) }]
    else LabeledResult.ops [op]

/-- The retry-by-recursion of `call_gpt_4o`, indexed by fuel: attempt
number k queries the environment; an exception recurses into the same
function with no bound.  A none result means the recursion was still
running when the fuel ran out. -/
def call_gpt_4o_model (env : Nat → Except Unit (List Op)) : Nat → Nat → Option (List Op)
  | 0, _ => none
  | fuel + 1, attempt =>
    match env attempt with
    | Except.ok l => some l
    | Except.error _ => call_gpt_4o_model env fuel (attempt + 1)

/-- Outcome of one llava attempt: a parsed batch, an ollama
ResponseError (the handler prints and falls off, returning None), or any
other exception (the handler recurses into the same function). -/
inductive LlavaStep where
  | ok (l : List Op)
  | respError
  | exc
deriving DecidableEq, Repr

/-- The retry-by-recursion of `call_ollama_llava`, indexed by fuel. -/
def call_ollama_llava_model (env : Nat → LlavaStep) : Nat → Nat → Option (Option (List Op))
  | 0, _ => none
  | fuel + 1, attempt =>
    match env attempt with
    | LlavaStep.ok l => some (some l)
    | LlavaStep.respError => some none
    | LlavaStep.exc => call_ollama_llava_model env fuel (attempt + 1)

/-- The environment in which every attempt fails. -/
def envAlwaysFail : Nat → Except Unit (List Op) := fun _ => Except.error ()

/-- The environment in which every llava attempt raises. -/
def envLlavaAlwaysExc : Nat → LlavaStep := fun _ => LlavaStep.exc

/-- A done operation used as the success payload of test environments. -/
def doneOp : Op := { operation := some "done" }

/-- An environment failing the first n attempts and then succeeding. -/
def envFailFirst (n : Nat) : Nat → Except Unit (List Op) :=
  fun k => if k < n then Except.error () else Except.ok [doneOp]

/-- One candidate match pooled by `find_ui_element_by_text_and_vision`:
source kind, heuristic confidence, center point and bounding rectangle. -/
structure Candidate where
  ctype : String
  confidence : ℚ
  center : ℚ × ℚ
  bbox : ℚ × ℚ × ℚ × ℚ
deriving DecidableEq, Repr

/-- Stable descending insertion: the new candidate is placed after every
existing candidate of greater or equal confidence, exactly reproducing
the order of the Python stable `sort(key=confidence, reverse=True)`. -/
def insertDescConf (c : Candidate) : List Candidate → List Candidate
  | [] => [c]
  | x :: xs => if c.confidence ≤ x.confidence then x :: insertDescConf c xs else c :: x :: xs

/-- The Python stable descending-by-confidence sort of the results pool. -/
def pySortByConfDesc (l : List Candidate) : List Candidate :=
  l.foldl (fun acc c => insertDescConf c acc) []

/-- The selection step of `find_ui_element_by_text_and_vision` on the
pooled results: with a non-empty pool, sort descending by confidence and
return the top center converted to fractions of the screenshot size;
with an empty pool return None. -/
def find_ui_element_select (results : List Candidate) (w h : ℚ) : Option (ℚ × ℚ) :=
  if results.isEmpty then none
  else
    match pySortByConfDesc results with
    | [] => none
    | best :: _ => some (best.center.1 / w, best.center.2 / h)

/-- A pixel of a screenshot: three channel bytes in storage order. -/
abbrev Pix : Type := ℕ × ℕ × ℕ

/-- A screenshot as a list of pixel rows. -/
abbrev Img : Type := List (List Pix)

/-- Numpy shape of an image (rows, columns), the channel count being
fixed at three. -/
def imgShape (m : Img) : ℕ × ℕ := (m.length, (m.head?.map List.length).getD 0)

/-- Per-channel absolute difference of two pixels (`cv2.absdiff`). -/
def pixAbsdiff (a b : Pix) : Pix :=
  ((max a.1 b.1 - min a.1 b.1),
   (max a.2.1 b.2.1 - min a.2.1 b.2.1),
   (max a.2.2 b.2.2 - min a.2.2 b.2.2))

/-- Element-wise absolute difference of two images. -/
def imgAbsdiff (a b : Img) : Img :=
  List.zipWith (fun ra rb => List.zipWith pixAbsdiff ra rb) a b

/-- The fixed-point BGR-to-gray conversion of `cv2.cvtColor`: the stored
channels are weighted 1868, 9617 and 4899 out of 16384 with rounding. -/
def grayPix (p : Pix) : ℕ := (p.1 * 1868 + p.2.1 * 9617 + p.2.2 * 4899 + 8192) / 16384

/-- Grayscale image of an image. -/
def grayImg (m : Img) : List (List ℕ) := m.map (fun row => row.map grayPix)

/-- Binary threshold at 30 with max value 255 (`cv2.threshold`,
THRESH_BINARY). -/
def threshImg (m : List (List ℕ)) : List (List ℕ) :=
  m.map (fun row => row.map (fun g => if 30 < g then 255 else 0))

/-- Count of nonzero entries (`np.count_nonzero`). -/
def countNonZero (m : List (List ℕ)) : ℕ := (m.map (fun row => row.countP (fun g => g ≠ 0))).sum

/-- Total number of entries (`thresholded.size`). -/
def matrixSize (m : List (List ℕ)) : ℕ := (m.map List.length).sum

/-- The after image aligned to the before image: when the numpy shapes
differ, the after image is resized to the before image shape through the
external resize primitive. -/
def alignedAfter (resize : Img → ℕ × ℕ → Img) (before after : Img) : Img :=
  if imgShape before ≠ imgShape after then resize after (imgShape before) else after

/-- `verify_success` of `operate/models/apis.py`, with the screenshot
taken after the operation and the OpenCV resize primitive passed in as
parameters.  For the open_folder task kind it thresholds the grayscale
of the absolute difference at 30 and succeeds when strictly more than 15
percent of the pixels changed; every other task kind returns failure. -/
def verify_success (resize : Img → ℕ × ℕ → Img) (before after : Img) (task_type : String) :
    Bool :=
  let after2 := alignedAfter resize before after
  if task_type = "open_folder" then
    let diff := imgAbsdiff before after2
    let thresholded := threshImg (grayImg diff)
    let changed := countNonZero thresholded
    let total := matrixSize thresholded
    decide (15 * total < changed * 100)
  else false

/-- Pixel-change count of a grayscale matrix against the luminance
threshold 30, stated directly as the spec describes the percentage
numerator. -/
def changedPixelCount (g : List (List ℕ)) : ℕ :=
  (g.map (fun row => row.countP (fun v => 30 < v))).sum

/-- Specification-side operation, written from the words of the claim:
kind wait, duration 1, thought "continuing after error". -/
def spec_safe_wait_op : Op :=
  { thought := some "continuing after error", operation := some "wait", duration := some 1 }

/-- A text whose first quote character is an apostrophe that never
closes, while a genuine double-quoted substring follows. -/
def mixedQuoteText : String := "it\x27s the \"readme\" file"

/-- The scenario input of the spec. -/
def sbcScenarioText : String := "Click on the \x27sbc-images-main\x27 folder to open it"

/-- A click operation whose label resolves in no label map. -/
def unresolvedClickOp : Op := { operation := some "click", label := some "3" }

/-- A plain write operation. -/
def demoWriteOp : Op := { operation := some "write", text := some "hello" }

/-- A click operation carrying label 1. -/
def demoLabelClickOp : Op := { operation := some "click", label := some "1" }

/-- A label map holding label 1 at box (10, 10, 4, 4). -/
def demoLabelMap : List (String × Box) := [("1", ((10 : ℚ), 10, 4, 4))]

/-- The label click of `demoLabelClickOp` resolved against
`demoLabelMap` on a 100 by 100 screenshot. -/
def demoResolvedClickOp : Op :=
  { operation := some "click", label := some "1", x := some (3 / 25), y := some (3 / 25) }

/-- OCR element reading Doc centered at (10, 10). -/
def ocrDocElem : OCRElem := ⟨(10, 10), (10, 10), (10, 10), (10, 10), "Doc", 1⟩

/-- OCR element reading Documents centered at (500, 500). -/
def ocrDocumentsElem : OCRElem := ⟨(500, 500), (500, 500), (500, 500), (500, 500), "Documents", 1⟩

/-- An OCR result set holding both a three-letter element and the full
Documents element. -/
def ocrDemo : List OCRElem := [ocrDocElem, ocrDocumentsElem]

/-- First click of the double-click counterexample batch: the thought
mentions a double click on quoted text, but no coordinates are present. -/
def dcFirstOp : Op :=
  { operation := some "click", thought := some "Need to double click on the \"folder\" icon" }

/-- Second click of the double-click counterexample batch. -/
def dcSecondOp : Op := { operation := some "click", text := some "OK" }

/-- First click of the well-formed double-click batch: thought mentions a
double click and explicit coordinates are present. -/
def dcFlagFirstOp : Op :=
  { operation := some "click", thought := some "double click the folder",
    x := some 1, y := some 2 }

/-- Second click of the well-formed double-click batch. -/
def dcFlagSecondOp : Op :=
  { operation := some "click", text := some "OK", x := some 1, y := some 2 }

/-- A wait operation heading a batch. -/
def waitFirstOp : Op := { operation := some "wait", duration := some 1 }

/-- A later click whose thought mentions a double click. -/
def dcClickLaterOp : Op :=
  { operation := some "click", thought := some "then double click the file",
    x := some 1, y := some 1 }

/-- Locator pool candidate of confidence one half. -/
def demoCandA : Candidate := ⟨"text", 1 / 2, (10, 20), (0, 0, 0, 0)⟩

/-- Locator pool candidate of confidence three quarters. -/
def demoCandB : Candidate := ⟨"icon", 3 / 4, (30, 40), (0, 0, 0, 0)⟩

/-- The identity resize primitive used by concrete probe evaluations. -/
def demoResize : Img → ℕ × ℕ → Img := fun i _ => i

/-- A one-pixel black image. -/
def demoBefore : Img := [[(0, 0, 0)]]

/-- A one-pixel white image. -/
def demoAfter : Img := [[(255, 255, 255)]]

end SOC

namespace SOC

attribute [local semireducible] Rat.add Rat.mul Rat.inv Rat.sub

/-!
Helper lemmas shared by the claim theorems.
-/

theorem containsSub_iff (n : List Char) : ∀ h : List Char, containsSub n h = true ↔ n <:+: h := by
  intro h
  induction h with
  | nil =>
    simp only [containsSub, List.infix_nil, List.isEmpty_iff]
  | cons c t ih =>
    simp only [containsSub, Bool.or_eq_true, List.infix_cons_iff, ih,
      List.isPrefixOf_iff_prefix]

theorem containsSub_of_infix_containsSub {a b h : List Char} (hab : a <:+: b)
    (hb : containsSub b h = true) : containsSub a h = true :=
  (containsSub_iff a h).mpr (hab.trans ((containsSub_iff b h).mp hb))

/-- C2 counterexample: in the `call_gpt_4o` retry recursion, an
environment failing the first three attempts is retried three times
within a single turn (it succeeds with fuel ten but is still running
with fuel three), and under persistent failure the recursion is still
running after one hundred attempts — the claim that each turn performs
at most one repair round-trip, and that no backend retries itself an
unbounded number of times, is false at this concrete input. -/
theorem c2_counterexample :
    call_gpt_4o_model (envFailFirst 3) 10 0 = some [doneOp] ∧
    call_gpt_4o_model (envFailFirst 3) 3 0 = none ∧
    call_gpt_4o_model envAlwaysFail 100 0 = none :=
  ⟨by decide, by decide, by decide⟩

/-- C2 (amended): the retry paths of `call_gpt_4o` and of
`call_ollama_llava` are retry-by-recursion with no bound: under
persistent failure neither function ever returns, at any fuel. -/
theorem c2_unbounded_retry :
    (∀ fuel attempt, call_gpt_4o_model envAlwaysFail fuel attempt = none) ∧
    (∀ fuel attempt, call_ollama_llava_model envLlavaAlwaysExc fuel attempt = none) := by
  constructor
  · intro fuel
    induction fuel with
    | zero => intro attempt; rfl
    | succ n ih =>
      intro attempt
      simpa [call_gpt_4o_model, envAlwaysFail] using ih (attempt + 1)
  · intro fuel
    induction fuel with
    | zero => intro attempt; rfl
    | succ n ih =>
      intro attempt
      simpa [call_ollama_llava_model, envLlavaAlwaysExc] using ih (attempt + 1)

/-- C7 counterexample: under an uncaught failure, the qwen turn does not
produce the fixed safe wait operation of the claim (it hops to the
gpt-4o fallback), and even the claude-3.7 turn, which does produce a
single wait operation, gives it the thought "Continuing task after
error" rather than the claimed "continuing after error". -/
theorem c7_counterexample :
    call_qwen_vl_turn [] 1 1 (Except.error ()) ≠ TurnResult.ops [spec_safe_wait_op] ∧
    call_claude_37_turn (Except.error ()) ≠ TurnResult.ops [spec_safe_wait_op] :=
  ⟨by decide, by decide⟩

/-- C7 (amended): an uncaught failure makes the OCR-augmented qwen turn
fall back to the gpt-4o backend, while the claude-3.7 turn returns the
single fixed wait operation of duration one whose thought reads
"Continuing task after error". -/
theorem c7_error_paths :
    (∀ ocr w h, call_qwen_vl_turn ocr w h (Except.error ()) = TurnResult.fallbackToGpt4o) ∧
    call_claude_37_turn (Except.error ()) = TurnResult.ops [claudeExceptionOp] ∧
    claudeExceptionOp.thought = some "Continuing task after error" :=
  ⟨fun _ _ _ => rfl, rfl, rfl⟩

/-- C8 counterexample: on a text whose first quote character is an
apostrophe that is never matched, the extractor returns the text between
the apostrophe and the first double quote, not the first quoted
substring (readme, per the matching-pair reading written from the spec);
the claim is false at this input. -/
theorem c8_counterexample :
    extract_target_from_text mixedQuoteText = "s the " ∧
    specFirstQuoted mixedQuoteText.toList = some ("readme".toList) ∧
    ("s the " : String) ≠ "readme" :=
  ⟨by decide, by decide, by decide⟩

/-- C8 (amended): whenever the priority-1 regex finds a first quote
character followed by a nonempty run of non-quote characters closed by
any quote character, the extractor returns exactly that run — which is
the first quoted substring whenever the quote characters of the text
form matching pairs, and in particular returns sbc-images-main on the
scenario input. -/
theorem c8_quoted_priority (text : String) (q : List Char)
    (h : findQuoted text.toList = some q) :
    extract_target_from_text text = String.mk q := by
  have h2 : findQuoted text.data = some q := h
  simp [extract_target_from_text, h2]

/-- Witness for C8: the scenario input has a quoted match, and the
extractor returns sbc-images-main on it. -/
theorem c8_witness :
    findQuoted sbcScenarioText.toList = some ("sbc-images-main".toList) ∧
    extract_target_from_text sbcScenarioText = "sbc-images-main" := by
  refine ⟨by decide, ?_⟩
  have h : findQuoted sbcScenarioText.toList = some ("sbc-images-main".toList) := by decide
  rw [c8_quoted_priority sbcScenarioText _ h]
  decide

/-- C1 counterexample: a batch of an unresolvable click followed by a
write operation does not keep the write operation while dropping the
click — the labeled backend abandons the whole batch and hops to the
gpt-4o fallback instead. -/
theorem c1_counterexample :
    call_gpt_4o_labeled_process [] 100 100 [unresolvedClickOp, demoWriteOp] =
      LabeledResult.fallbackToGpt4o ∧
    call_gpt_4o_labeled_process [] 100 100 [unresolvedClickOp, demoWriteOp] ≠
      LabeledResult.ops [demoWriteOp] :=
  ⟨rfl, by decide⟩

/-- C1 (amended): when the first operation is a click whose label cannot
be resolved, the labeled backend does not fabricate a coordinate and
does not emit the rest of the batch: it returns the gpt-4o fallback hop,
abandoning the whole batch. -/
theorem c1_unresolved_label_falls_back (lc : List (String × Box)) (w h : ℚ) (op : Op)
    (rest : List Op) (hclick : op.operation = some "click")
    (hun : get_click_position_in_percent (get_label_coordinates op.label lc) w h = none) :
    call_gpt_4o_labeled_process lc w h (op :: rest) = LabeledResult.fallbackToGpt4o := by
  simp [call_gpt_4o_labeled_process, hclick, hun]

/-- Witness for C1: the unresolvable click is a click, its position is
unresolved in the empty label map, and the labeled backend falls back. -/
theorem c1_witness :
    unresolvedClickOp.operation = some "click" ∧
    get_click_position_in_percent (get_label_coordinates unresolvedClickOp.label []) 100 100 =
      none ∧
    call_gpt_4o_labeled_process [] 100 100 [unresolvedClickOp] = LabeledResult.fallbackToGpt4o :=
  ⟨rfl, rfl, c1_unresolved_label_falls_back [] 100 100 unresolvedClickOp [] rfl rfl⟩

/-- C3 (confirmed): the labeled backend returns from inside the
per-operation loop, so a batch behaves exactly like its first operation
alone, and any batch it emits itself holds at most one operation. -/
theorem c3_labeled_first_only (lc : List (String × Box)) (w h : ℚ) (op : Op) (rest : List Op) :
    call_gpt_4o_labeled_process lc w h (op :: rest) = call_gpt_4o_labeled_process lc w h [op] ∧
    ∀ l, call_gpt_4o_labeled_process lc w h (op :: rest) = LabeledResult.ops l →
      l.length ≤ 1 := by
  refine ⟨rfl, ?_⟩
  intro l hl
  by_cases hc : op.operation = some "click"
  · rcases hres : get_click_position_in_percent (get_label_coordinates op.label lc) w h with
      _ | ⟨xp, yp⟩
    · simp [call_gpt_4o_labeled_process, hc, hres] at hl
    · simp [call_gpt_4o_labeled_process, hc, hres] at hl
      simp [← hl]
  · simp [call_gpt_4o_labeled_process, hc] at hl
    simp [← hl]

/-- Witness for C3: a two-operation batch headed by a resolvable click
equals the one-operation batch, and the emitted list has one element. -/
theorem c3_witness :
    call_gpt_4o_labeled_process demoLabelMap 100 100 [demoLabelClickOp, demoWriteOp] =
      call_gpt_4o_labeled_process demoLabelMap 100 100 [demoLabelClickOp] ∧
    [demoResolvedClickOp].length ≤ 1 :=
  ⟨(c3_labeled_first_only demoLabelMap 100 100 demoLabelClickOp [demoWriteOp]).1,
   (c3_labeled_first_only demoLabelMap 100 100 demoLabelClickOp [demoWriteOp]).2
     [demoResolvedClickOp] (by decide)⟩

theorem exactTextIdx_spec (t : String) :
    ∀ result : List OCRElem, (∃ e ∈ result, e.text = t) →
      ∃ i e, exactTextIdx result t = some i ∧ result.get? i = some e ∧ e.text = t := by
  intro result
  induction result with
  | nil => intro h; simp at h
  | cons a rest ih =>
    intro h
    by_cases ha : a.text = t
    · exact ⟨0, a, by simp [exactTextIdx, ha], rfl, ha⟩
    · obtain ⟨e, he, het⟩ := h
      rcases List.mem_cons.mp he with rfl | he
      · exact absurd het ha
      · obtain ⟨i, ex, hx, hg, hxt⟩ := ih ⟨e, he, het⟩
        exact ⟨i + 1, ex, by simp [exactTextIdx, ha, hx], by simpa using hg, hxt⟩

/-- C4 counterexample: with an OCR set holding both a Doc element and an
exactly matching Documents element, the claude-3 backend resolution
(which truncates the target to three characters) returns the Doc
center of the Doc element, not the center of the exact match — the claim is false
for this OCR-augmented backend at this input. -/
theorem c4_counterexample :
    claude3_click_resolve ocrDemo 1000 1000 "Documents" = some (1 / 100, 1 / 100) ∧
    claude3_click_resolve ocrDemo 1000 1000 "Documents" ≠
      some (elemCenterX ocrDocumentsElem / 1000, elemCenterY ocrDocumentsElem / 1000) :=
  ⟨by decide, by decide⟩

/-- C4 (amended): for the backends that pass the full target text (qwen,
gpt-4o-with-ocr, o1), whenever the recognized text of some OCR element equals
the target exactly, the resolution returns the center of an
exactly-matching element, never a lower-similarity alternative; the
claude-3 backend escapes this through its three-character truncation. -/
theorem c4_exact_match_center (result : List OCRElem) (w h : ℚ) (target : String)
    (hex : ∃ e ∈ result, e.text = target) :
    ∃ i e, result.get? i = some e ∧ e.text = target ∧
      ocr_click_resolve result w h target = some (elemCenterX e / w, elemCenterY e / h) := by
  obtain ⟨i, e, hx, hg, ht⟩ := exactTextIdx_spec target result hex
  have hg2 : result[i]? = some e := by simpa using hg
  refine ⟨i, e, hg, ht, ?_⟩
  have hel : get_text_element result target = some i := by
    simp [get_text_element, hx]
  simp [ocr_click_resolve, hel, get_text_coordinates, hg2]

/-- Witness for C4: the demo OCR set holds an exact Documents match and
the full-text resolution returns the center of an exactly-matching element. -/
theorem c4_witness :
    (∃ e ∈ ocrDemo, e.text = "Documents") ∧
    ∃ i e, ocrDemo.get? i = some e ∧ e.text = "Documents" ∧
      ocr_click_resolve ocrDemo 1000 1000 "Documents" =
        some (elemCenterX e / 1000, elemCenterY e / 1000) :=
  ⟨⟨ocrDocumentsElem, by decide, rfl⟩,
   c4_exact_match_center ocrDemo 1000 1000 "Documents" ⟨ocrDocumentsElem, by decide, rfl⟩⟩

theorem claudeTargetDescription_ok (op : Op) (xv yv : ℚ) (hx : op.x = some xv)
    (hy : op.y = some yv) : ∃ s, claudeTargetDescription op = Except.ok s := by
  unfold claudeTargetDescription
  by_cases hraw : (claudeRawTarget op).isEmpty
  · rw [if_pos hraw, hx, hy]; exact ⟨_, rfl⟩
  · rw [if_neg hraw]; exact ⟨_, rfl⟩

/-- C5 counterexample: a batch of two click operations whose first
thought contains the phrase double click, but whose first click carries
no explicit coordinates, collapses to exactly one click that is NOT
flagged as a double-click (the flag assignment sits after the coordinate
reads inside a try that swallows the KeyError). -/
theorem c5_counterexample :
    containsSub ("double click".toList)
      (lowerList ((dcFirstOp.thought.getD "").toList)) = true ∧
    call_claude_37_result [dcFirstOp, dcSecondOp] = [dcFirstOp] ∧
    dcFirstOp.double_click = false :=
  ⟨by decide, by decide, rfl⟩

/-- C5 (amended): a batch of two click operations whose first thought
contains the phrase double click collapses to exactly the first click
flagged as a double-click, provided both clicks carry explicit x and y
coordinates (the flag needs them on the first click, and the target
formatting of any later click reads them when no textual target is
extractable). -/
theorem c5_double_click_collapse (c1 c2 : Op) (t : String) (x1 y1 x2 y2 : ℚ)
    (h1 : c1.operation = some "click") (h2 : c2.operation = some "click")
    (ht : c1.thought = some t)
    (hdc : containsSub ("double click".toList) (lowerList t.toList) = true)
    (hx1 : c1.x = some x1) (hy1 : c1.y = some y1)
    (hx2 : c2.x = some x2) (hy2 : c2.y = some y2) :
    call_claude_37_result [c1, c2] = [{ c1 with double_click := true }] := by
  have hd : containsSub ("double".toList) (lowerList t.toList) = true :=
    containsSub_of_infix_containsSub
      ((containsSub_iff _ _).mp (by decide)) hdc
  have hc : containsSub ("click".toList) (lowerList t.toList) = true :=
    containsSub_of_infix_containsSub
      ((containsSub_iff _ _).mp (by decide)) hdc
  have hmind : thoughtMentionsDoubleClick c1 = true := by
    have h0 : thoughtMentionsDoubleClick c1 =
        (containsSub ("double".toList) (lowerList t.toList) &&
         containsSub ("click".toList) (lowerList t.toList)) := by
      unfold thoughtMentionsDoubleClick
      rw [ht]
    rw [h0, hd, hc]
    rfl
  have hneed : doubleClickHeuristic [c1, c2] = true := by
    simp [doubleClickHeuristic, hmind]
  obtain ⟨s1, hs1⟩ := claudeTargetDescription_ok c1 x1 y1 hx1 hy1
  obtain ⟨s2, hs2⟩ := claudeTargetDescription_ok c2 x2 y2 hx2 hy2
  have hflag : flagDoubleClick c1 = { c1 with double_click := true } := by
    simp [flagDoubleClick, hx1, hy1]
  simp [call_claude_37_result, claudeProcess, hneed, claudeLoop, h1, h2, hs1, hs2, hflag]

/-- Witness for C5: both clicks of the well-formed batch carry
coordinates and the first thought says double click, so the batch
collapses to the single flagged first click. -/
theorem c5_witness :
    call_claude_37_result [dcFlagFirstOp, dcFlagSecondOp] =
      [{ dcFlagFirstOp with double_click := true }] :=
  c5_double_click_collapse dcFlagFirstOp dcFlagSecondOp "double click the folder" 1 2 1 2
    rfl rfl rfl (by decide) rfl rfl rfl rfl

theorem mem_insertDescConf {x c : Candidate} :
    ∀ {l : List Candidate}, x ∈ insertDescConf c l ↔ x = c ∨ x ∈ l := by
  intro l
  induction l with
  | nil => simp [insertDescConf]
  | cons a as ih =>
    by_cases hca : c.confidence ≤ a.confidence
    · rw [show insertDescConf c (a :: as) = a :: insertDescConf c as from by
        simp [insertDescConf, hca]]
      simp only [List.mem_cons, ih]
      tauto
    · rw [show insertDescConf c (a :: as) = c :: a :: as from by
        simp [insertDescConf, hca]]
      simp only [List.mem_cons]

theorem pairwise_insertDescConf {c : Candidate} :
    ∀ {l : List Candidate}, l.Pairwise (fun a b => b.confidence ≤ a.confidence) →
      (insertDescConf c l).Pairwise (fun a b => b.confidence ≤ a.confidence) := by
  intro l
  induction l with
  | nil => intro _; simp [insertDescConf]
  | cons a as ih =>
    intro hl
    rcases List.pairwise_cons.mp hl with ⟨ha, has⟩
    by_cases hca : c.confidence ≤ a.confidence
    · have he : insertDescConf c (a :: as) = a :: insertDescConf c as := by
        simp [insertDescConf, hca]
      rw [he]
      refine List.pairwise_cons.mpr ⟨?_, ih has⟩
      intro b hb
      rcases mem_insertDescConf.mp hb with rfl | hb
      · exact hca
      · exact ha b hb
    · have he : insertDescConf c (a :: as) = c :: a :: as := by
        simp [insertDescConf, hca]
      rw [he]
      refine List.pairwise_cons.mpr ⟨?_, hl⟩
      intro b hb
      rcases List.mem_cons.mp hb with rfl | hb
      · exact le_of_not_le hca
      · exact le_trans (ha b hb) (le_of_not_le hca)

theorem length_insertDescConf (c : Candidate) :
    ∀ l : List Candidate, (insertDescConf c l).length = l.length + 1 := by
  intro l
  induction l with
  | nil => rfl
  | cons a as ih =>
    by_cases hca : c.confidence ≤ a.confidence <;>
      simp [insertDescConf, hca, ih]

theorem mem_sort_foldl (l : List Candidate) :
    ∀ acc x, x ∈ l.foldl (fun a c => insertDescConf c a) acc ↔ x ∈ acc ∨ x ∈ l := by
  induction l with
  | nil => intro acc x; simp
  | cons c cs ih =>
    intro acc x
    rw [List.foldl_cons, ih, mem_insertDescConf]
    simp only [List.mem_cons]
    tauto

theorem pairwise_sort_foldl (l : List Candidate) :
    ∀ acc, acc.Pairwise (fun a b => b.confidence ≤ a.confidence) →
      (l.foldl (fun a c => insertDescConf c a) acc).Pairwise
        (fun a b => b.confidence ≤ a.confidence) := by
  induction l with
  | nil => intro acc hacc; simpa using hacc
  | cons c cs ih =>
    intro acc hacc
    rw [List.foldl_cons]
    exact ih _ (pairwise_insertDescConf hacc)

theorem length_sort_foldl (l : List Candidate) :
    ∀ acc, (l.foldl (fun a c => insertDescConf c a) acc).length = acc.length + l.length := by
  induction l with
  | nil => intro acc; simp
  | cons c cs ih =>
    intro acc
    rw [List.foldl_cons, ih, length_insertDescConf]
    simp only [List.length_cons]
    omega

/-- C6 (confirmed): on an empty candidate pool the locator selection
returns none rather than any coordinate; on a non-empty pool it returns
the center of a candidate of maximal confidence, converted to fractions
of the screenshot width and height. -/
theorem c6_locator_selection (results : List Candidate) (w h : ℚ) :
    (results = [] → find_ui_element_select results w h = none) ∧
    (results ≠ [] →
      ∃ c, c ∈ results ∧ (∀ d ∈ results, d.confidence ≤ c.confidence) ∧
        find_ui_element_select results w h = some (c.center.1 / w, c.center.2 / h)) := by
  constructor
  · rintro rfl; rfl
  · intro hne
    have hlen : (pySortByConfDesc results).length = results.length := by
      simpa [pySortByConfDesc] using length_sort_foldl results []
    cases hs : pySortByConfDesc results with
    | nil =>
      exfalso
      rw [hs] at hlen
      cases results with
      | nil => exact hne rfl
      | cons a as => simp at hlen
    | cons best rest2 =>
      have hmemsort : best ∈ pySortByConfDesc results := by
        rw [hs]; exact List.mem_cons_self _ _
      have hmem : best ∈ results := by
        rcases (mem_sort_foldl results [] best).mp hmemsort with hin | hin
        · cases hin
        · exact hin
      have hpw : (pySortByConfDesc results).Pairwise
          (fun a b => b.confidence ≤ a.confidence) :=
        pairwise_sort_foldl results [] (by simp)
      have hmax : ∀ d ∈ results, d.confidence ≤ best.confidence := by
        intro d hd
        have hd2 : d ∈ pySortByConfDesc results :=
          (mem_sort_foldl results [] d).mpr (Or.inr hd)
        rw [hs] at hd2 hpw
        rcases List.mem_cons.mp hd2 with rfl | hd3
        · exact le_refl _
        · exact (List.pairwise_cons.mp hpw).1 d hd3
      have hie : results.isEmpty = false := by
        cases results with
        | nil => exact absurd rfl hne
        | cons a as => rfl
      refine ⟨best, hmem, hmax, ?_⟩
      simp [find_ui_element_select, hie, hs]

/-- Witness for C6: on the two-candidate pool the selection returns the
center of the more confident candidate as screen fractions. -/
theorem c6_witness :
    ([demoCandA, demoCandB] : List Candidate) ≠ [] ∧
    ∃ c, c ∈ [demoCandA, demoCandB] ∧
      (∀ d ∈ [demoCandA, demoCandB], d.confidence ≤ c.confidence) ∧
      find_ui_element_select [demoCandA, demoCandB] 100 100 =
        some (c.center.1 / 100, c.center.2 / 100) :=
  ⟨by decide, (c6_locator_selection [demoCandA, demoCandB] 100 100).2 (by decide)⟩

theorem countNonZero_threshImg (g : List (List ℕ)) :
    countNonZero (threshImg g) = changedPixelCount g := by
  simp only [countNonZero, threshImg, changedPixelCount, List.map_map]
  congr 1
  congr 1
  funext row
  simp only [Function.comp]
  rw [List.countP_map]
  apply List.countP_congr
  intro v _
  by_cases h30 : 30 < v <;> simp [h30]

theorem matrixSize_threshImg (g : List (List ℕ)) :
    matrixSize (threshImg g) = matrixSize g := by
  unfold matrixSize threshImg
  rw [List.map_map]
  congr 1
  congr 1
  funext row
  simp

/-- C9 (confirmed): the verification probe succeeds exactly on the
open_folder task kind with strictly more than fifteen percent of the
pixels of the thresholded luminance difference changed, where the after
image is first resized to the before image shape whenever the shapes
differ; every other task kind reports failure. -/
theorem c9_verify_success_iff (resize : Img → ℕ × ℕ → Img) (before after : Img)
    (task : String)
    (htot : 0 < matrixSize (grayImg (imgAbsdiff before (alignedAfter resize before after)))) :
    verify_success resize before after task = true ↔
      (task = "open_folder" ∧
        (15 : ℚ) <
          (changedPixelCount (grayImg (imgAbsdiff before (alignedAfter resize before after))) : ℚ) /
            (matrixSize (grayImg (imgAbsdiff before (alignedAfter resize before after))) : ℚ) *
            100) := by
  by_cases htask : task = "open_folder"
  · subst htask
    have hT : (0 : ℚ) <
        (matrixSize (grayImg (imgAbsdiff before (alignedAfter resize before after))) : ℚ) := by
      exact_mod_cast htot
    simp only [verify_success, countNonZero_threshImg, matrixSize_threshImg,
      if_true, eq_self_iff_true, true_and, decide_eq_true_eq]
    rw [div_mul_eq_mul_div, lt_div_iff₀ hT]
    constructor
    · intro hlt; exact_mod_cast hlt
    · intro hlt; exact_mod_cast hlt
  · simp [verify_success, htask]

/-- Witness for C9: on a one-pixel black-to-white change the total pixel
count is positive and the probe equivalence holds, with both sides true. -/
theorem c9_witness :
    0 < matrixSize (grayImg (imgAbsdiff demoBefore (alignedAfter demoResize demoBefore demoAfter))) ∧
    (verify_success demoResize demoBefore demoAfter "open_folder" = true ↔
      ("open_folder" = "open_folder" ∧
        (15 : ℚ) <
          (changedPixelCount (grayImg (imgAbsdiff demoBefore
              (alignedAfter demoResize demoBefore demoAfter))) : ℚ) /
            (matrixSize (grayImg (imgAbsdiff demoBefore
              (alignedAfter demoResize demoBefore demoAfter))) : ℚ) * 100)) :=
  ⟨by decide, c9_verify_success_iff demoResize demoBefore demoAfter "open_folder" (by decide)⟩

theorem claudeLoop_pos_no_click :
    ∀ (ops : List Op) (i : Nat) (l : List Op), 0 < i →
      claudeLoop true i ops = Except.ok l →
      l.all (fun o => o.operation != some "click") = true := by
  intro ops
  induction ops with
  | nil =>
    intro i l _ h
    simp only [claudeLoop] at h
    cases h
    rfl
  | cons op rest ih =>
    intro i l hi h
    have hne : ¬(i = 0) := by omega
    by_cases hc : op.operation = some "click"
    · cases htd : claudeTargetDescription op with
      | error e => simp [claudeLoop, hc, htd] at h
      | ok s =>
        simp only [claudeLoop, hc, htd, if_pos, if_neg, hne, hi] at h
        have h2 : claudeLoop true (i + 1) rest = Except.ok l := by
          simpa [hne, hi] using h
        exact ih (i + 1) l (Nat.succ_pos i) h2
    · cases hr : claudeLoop true (i + 1) rest with
      | error e => simp [claudeLoop, hc, hr] at h
      | ok l2 =>
        have hall := ih (i + 1) l2 (Nat.succ_pos i) hr
        simp only [claudeLoop, hc, hr, if_neg] at h
        cases h
        simp [List.all_cons, hc, hall]

/-- C10 (confirmed): in `call_claude_37`, when the double-click scan
fires and the first operation of the batch is not a click, the returned
batch holds no click operation at all — later clicks are skipped by the
loop, and the exception path returns only a wait operation. -/
theorem c10_no_clicks_when_first_not_click (op0 : Op) (rest : List Op)
    (h0 : op0.operation ≠ some "click")
    (hdc : doubleClickHeuristic (op0 :: rest) = true) :
    (call_claude_37_result (op0 :: rest)).all (fun o => o.operation != some "click") = true := by
  unfold call_claude_37_result claudeProcess
  rw [hdc]
  cases hr : claudeLoop true 1 rest with
  | error e => simp [claudeLoop, h0, hr, claudeExceptionOp]
  | ok l2 =>
    have hall := claudeLoop_pos_no_click rest 1 l2 Nat.one_pos hr
    simp [claudeLoop, h0, hr, List.all_cons, hall]

/-- Witness for C10: a wait-headed batch whose later click mentions a
double click in its thought comes back with no click operation. -/
theorem c10_witness :
    (call_claude_37_result [waitFirstOp, dcClickLaterOp]).all
      (fun o => o.operation != some "click") = true :=
  c10_no_clicks_when_first_not_click waitFirstOp [dcClickLaterOp] (by decide) (by decide)

end SOC
